import Mathlib

/-!
Verification of the leftys graffiti-wall core against its specification.

The development shallowly embeds the TypeScript sources:
  * the item store (`getGraffiti`, `addGraffiti`) and its persistence file,
  * the snapshot compositor (`latestChangeMs`, `snapshotKey`, `renderOverlays`,
    `generateWallSnapshot`) with its fingerprint cache,
  * the tool-layer normalization (`normalizePercentPair`, `sprayText`, `sprayImage`),
  * the local-file branch of `loadImageSource` with its traversal guard,
  * the MCP session routing of `createMcpRouter` (`handleMcp`).

Embedding conventions: JavaScript numbers occurring in item fields are embedded
as rationals; `createdAt` strings are always produced by `Date.toISOString()`,
whose canonical fixed-width output is order-isomorphic to the millisecond
timestamp `Date.parse` recovers from it, so `createdAt` is embedded as that
millisecond value (a natural number) and the `localeCompare` ordering used by
`getGraffiti` coincides with the numeric order.  Nondeterministic inputs
(`randomUUID`, the wall clock, the filesystem, the network, image decoding)
are passed explicitly as oracle arguments.  JavaScript's stable `Array.sort`
is embedded as insertion sort, which is stable for the comparator used here.
-/

namespace Leftys

/-- Percentage coordinates of an item on the canvas. -/
structure Position where
  x : ℚ
  y : ℚ
deriving DecidableEq

/-- Percentage dimensions of an image item. -/
structure Dimensions where
  width : ℚ
  height : ℚ
deriving DecidableEq

/-- The image variant of a stored graffiti item. -/
structure GraffitiImage where
  id : String
  imageUrl : String
  position : Position
  dimensions : Dimensions
  rotation : ℚ
  opacity : ℚ
  createdAt : Nat
deriving DecidableEq

/-- The text variant of a stored graffiti item. -/
structure GraffitiText where
  id : String
  text : String
  font : String
  color : String
  position : Position
  size : ℚ
  rotation : ℚ
  opacity : ℚ
  createdAt : Nat
deriving DecidableEq

/-- A stored graffiti item: tagged union of the image and text variants. -/
inductive GraffitiItem
  | image (img : GraffitiImage)
  | text (txt : GraffitiText)
deriving DecidableEq

/-- The id field shared by both variants. -/
def GraffitiItem.id : GraffitiItem → String
  | .image img => img.id
  | .text txt => txt.id

/-- The createdAt field shared by both variants. -/
def GraffitiItem.createdAt : GraffitiItem → Nat
  | .image img => img.createdAt
  | .text txt => txt.createdAt

/-- The comparator of `getGraffiti`: ascending `createdAt`
(`a.createdAt.localeCompare(b.createdAt)` on canonical ISO strings). -/
def createdLE (a b : GraffitiItem) : Prop :=
  a.createdAt ≤ b.createdAt

instance : DecidableRel createdLE :=
  fun a b => Nat.decLe a.createdAt b.createdAt

instance : IsTotal GraffitiItem createdLE :=
  ⟨fun a b => Nat.le_total a.createdAt b.createdAt⟩

instance : IsTrans GraffitiItem createdLE :=
  ⟨fun _ _ _ hab hbc => Nat.le_trans hab hbc⟩

/-- Embeds `getGraffiti` of src/unnamed/part_004: read the persisted sequence
and sort it ascending by `createdAt` with JavaScript's stable sort. -/
def getGraffiti (file : List GraffitiItem) : List GraffitiItem :=
  List.insertionSort createdLE file

/-- The caller-supplied fields of a new item (`Omit<GraffitiItem, "id" | "createdAt">`). -/
inductive NewGraffitiItem
  | image (imageUrl : String) (position : Position) (dimensions : Dimensions)
      (rotation opacity : ℚ)
  | text (text font color : String) (position : Position) (size rotation opacity : ℚ)
deriving DecidableEq

/-- Builds the stored record from the new fields plus the assigned id and
createdAt, as the object literal in `addGraffiti` does. -/
def NewGraffitiItem.withMeta : NewGraffitiItem → String → Nat → GraffitiItem
  | .image u p d r o, newId, now => .image ⟨newId, u, p, d, r, o, now⟩
  | .text s f c p sz r o, newId, now => .text ⟨newId, s, f, c, p, sz, r, o, now⟩

/-- Embeds `addGraffiti` of src/unnamed/part_004: assign id and createdAt
(passed as oracles for `randomUUID()` and `Date.now`), read the current sorted
sequence, push the new record, and persist.  Returns the stored record and the
new persisted file contents. -/
def addGraffiti (file : List GraffitiItem) (item : NewGraffitiItem)
    (newId : String) (now : Nat) : GraffitiItem × List GraffitiItem :=
  let next := item.withMeta newId now
  let existing := getGraffiti file
  (next, existing ++ [next])

/-- One primitive step of a concurrent `addGraffiti` call: the awaited
`getGraffiti()` read, or the awaited `fs.writeFile` write.  The read captures
the current file contents into the call's local `existing`; the write persists
the captured list with the call's new record pushed, discarding whatever the
file holds at write time (read-modify-write). -/
inductive AppendStep
  | readStep (i : Nat)
  | writeStep (i : Nat)
deriving DecidableEq

/-- Executes an interleaving of concurrent `addGraffiti` calls.  Call `i`
appends `pending i` with id `ids i` and createdAt `clock i`; `captured` holds
each call's local `existing` list once its read step has run. -/
def runAppends (pending : Nat → NewGraffitiItem) (ids : Nat → String)
    (clock : Nat → Nat) (steps : List AppendStep) (file : List GraffitiItem)
    (captured : Nat → Option (List GraffitiItem)) : List GraffitiItem :=
  match steps with
  | [] => file
  | .readStep i :: rest =>
      runAppends pending ids clock rest file
        (fun j => if j = i then some (getGraffiti file) else captured j)
  | .writeStep i :: rest =>
      match captured i with
      | none => runAppends pending ids clock rest file captured
      | some snap =>
          runAppends pending ids clock rest
            (snap ++ [(pending i).withMeta (ids i) (clock i)]) captured

/-- Replays a sequence of (sequential) appends from an empty store, yielding
the persisted file contents. -/
def replayAppends (ops : List (NewGraffitiItem × String × Nat)) : List GraffitiItem :=
  ops.foldl (fun file op => (addGraffiti file op.1 op.2.1 op.2.2).2) []

/-- The stored records of a sequence of appends, in append order. -/
def appendedItems (ops : List (NewGraffitiItem × String × Nat)) : List GraffitiItem :=
  ops.map (fun op => op.1.withMeta op.2.1 op.2.2)

/-- The reducer of the `items.reduce` in `generateWallSnapshot`: keep the
later of the accumulated change time and the item's parsed createdAt. -/
def latestStep (latest : Option Nat) (item : GraffitiItem) : Option Nat :=
  match latest with
  | none => some item.createdAt
  | some m => if item.createdAt > m then some item.createdAt else some m

/-- Embeds the `items.reduce` of `generateWallSnapshot`: the latest
`Date.parse(item.createdAt)` across all items, or none for an empty store.
With `createdAt` embedded as its parsed millisecond value, the
`Number.isFinite` guard of the source is always satisfied. -/
def latestChangeMs (items : List GraffitiItem) : Option Nat :=
  items.foldl latestStep none

/-- Embeds the `snapshotKey` of `generateWallSnapshot`: the latest change in
milliseconds rendered as a string, or the sentinel "empty". -/
def snapshotKey (items : List GraffitiItem) : String :=
  match latestChangeMs items with
  | none => "empty"
  | some m => toString m

/-- The public URL under which the snapshot for a key is stored. -/
def snapshotUrl (key : String) : String :=
  "/uploads/snapshots/wall-snapshot-" ++ key ++ ".png"

/-- Pixel dimensions of the background image. -/
structure Background where
  width : Nat
  height : Nat
deriving DecidableEq

/-- A cached snapshot artifact: the rendered PNG's recorded metadata is its
pixel dimensions (what `sharp(outPath).metadata()` recovers on a cache hit). -/
structure SnapshotArtifact where
  width : Nat
  height : Nat
deriving DecidableEq

/-- Embeds the `SnapshotResult` record returned by `generateWallSnapshot`. -/
structure SnapshotResult where
  imageUrl : String
  width : Nat
  height : Nat
  itemCount : Nat
  skippedImages : Nat
  fromCache : Bool
  snapshotKey : String
deriving DecidableEq

/-- One composited overlay: the SVG of a text item, or a resolved and decoded
image together with the processed pixel data sharp produced for it. -/
inductive Overlay
  | text (txt : GraffitiText)
  | image (img : GraffitiImage) (data : Nat)
deriving DecidableEq

/-- Embeds the per-item loop of `generateWallSnapshot` (the lines iterating
`for (const item of items)`).  `resolve` is the oracle for `loadImageSource`
(data-URL decoding, confined local reads, remote fetches); `decode` is the
oracle for the `sharp(imageSource)...toBuffer()` pipeline.  A text item always
composites; an image whose source does not resolve is skipped and counted; an
image whose resolved bytes sharp cannot process throws, aborting the render
(the loop has no try/catch around the sharp pipeline). -/
def renderOverlays (resolve : String → Option Nat) (decode : Nat → Option Nat) :
    List GraffitiItem → Except String (List Overlay × Nat)
  | [] => .ok ([], 0)
  | item :: rest =>
    match item with
    | .text txt =>
      match renderOverlays resolve decode rest with
      | .error e => .error e
      | .ok (ovs, skipped) => .ok (.text txt :: ovs, skipped)
    | .image img =>
      match resolve img.imageUrl with
      | none =>
        match renderOverlays resolve decode rest with
        | .error e => .error e
        | .ok (ovs, skipped) => .ok (ovs, skipped + 1)
      | some bytes =>
        match decode bytes with
        | none => .error "decode"
        | some data =>
          match renderOverlays resolve decode rest with
          | .error e => .error e
          | .ok (ovs, skipped) => .ok (.image img data :: ovs, skipped)

/-- Holds when every image item of the list whose source resolves also
decodes; the render loop of `generateWallSnapshot` only completes without
throwing under this condition. -/
def decodesAll (resolve : String → Option Nat) (decode : Nat → Option Nat)
    (x : GraffitiItem) : Bool :=
  match x with
  | .image img =>
    match resolve img.imageUrl with
    | none => true
    | some b => (decode b).isSome
  | .text _ => true

/-- An image item whose source does not resolve — the items the render loop
skips while counting them. -/
def unresolvedImage (resolve : String → Option Nat) (x : GraffitiItem) : Bool :=
  match x with
  | .image img => (resolve img.imageUrl).isNone
  | .text _ => false

/-- The overlay an item contributes to the composite, if any: text always
composites, an image composites exactly when its source resolves and
decodes. -/
def compositeOf (resolve : String → Option Nat) (decode : Nat → Option Nat)
    (x : GraffitiItem) : Option Overlay :=
  match x with
  | .text txt => some (.text txt)
  | .image img =>
    match resolve img.imageUrl with
    | none => none
    | some b =>
      match decode b with
      | none => none
      | some d => some (.image img d)

/-- Embeds `generateWallSnapshot` of src/unnamed/part_004.  The filesystem
snapshot directory is the cache, keyed by `snapshotKey`; a hit returns the
recorded artifact's pixel dimensions with `itemCount` recomputed from the
current items and `skippedImages` hardcoded to 0, without touching the
background or the per-item loop.  A miss requires a background with known
nonzero dimensions (zero embeds the falsy `!metadata.width` check), runs the
per-item loop, and stores the new artifact under the key.  Returns the result
together with the updated cache. -/
def generateWallSnapshot (resolve : String → Option Nat) (decode : Nat → Option Nat)
    (background : Option Background) (cache : String → Option SnapshotArtifact)
    (file : List GraffitiItem) :
    Except String (SnapshotResult × (String → Option SnapshotArtifact)) :=
  match cache (snapshotKey (getGraffiti file)) with
  | some art =>
      .ok (⟨snapshotUrl (snapshotKey (getGraffiti file)), art.width, art.height,
        (getGraffiti file).length, 0, true, snapshotKey (getGraffiti file)⟩, cache)
  | none =>
    match background with
    | none => .error "No background image found in /public."
    | some bg =>
      if bg.width = 0 ∨ bg.height = 0 then
        .error "Background image has unknown dimensions."
      else
        match renderOverlays resolve decode (getGraffiti file) with
        | .error e => .error e
        | .ok (_, skipped) =>
            .ok (⟨snapshotUrl (snapshotKey (getGraffiti file)), bg.width, bg.height,
              (getGraffiti file).length, skipped, false, snapshotKey (getGraffiti file)⟩,
              fun k =>
                if k = snapshotKey (getGraffiti file) then some ⟨bg.width, bg.height⟩
                else cache k)

/-- Embeds `fractionRange` inside `normalizePercentPair`. -/
def fractionRange (value : ℚ) : Bool :=
  decide (0 ≤ value ∧ value < 1)

/-- Result record of `normalizePercentPair`. -/
structure NormalizedPair where
  first : ℚ
  second : ℚ
  normalized : Bool
deriving DecidableEq

/-- Embeds `normalizePercentPair` of src/unnamed/part_002: when both
components lie in [0,1) they are treated as fractions and scaled by 100,
otherwise they are stored as-is. -/
def normalizePercentPair (first second : ℚ) : NormalizedPair :=
  let shouldNormalize := fractionRange first && fractionRange second
  if shouldNormalize then ⟨first * 100, second * 100, true⟩
  else ⟨first, second, false⟩

/-- Embeds the `spray_text` tool handler's construction of the stored fields:
the position pair is normalized before `addGraffiti`. -/
def sprayText (text font color : String) (pos : Position) (size rotation opacity : ℚ) :
    NewGraffitiItem :=
  let n := normalizePercentPair pos.x pos.y
  .text text font color ⟨n.first, n.second⟩ size rotation opacity

/-- Embeds the `spray_image` tool handler's construction of the stored fields:
both the position pair and the dimensions pair are normalized before
`addGraffiti`. -/
def sprayImage (imageUrl : String) (pos : Position) (dims : Dimensions)
    (rotation opacity : ℚ) : NewGraffitiItem :=
  let np := normalizePercentPair pos.x pos.y
  let nd := normalizePercentPair dims.width dims.height
  .image imageUrl ⟨np.first, np.second⟩ ⟨nd.first, nd.second⟩ rotation opacity

/-- Embeds `path.resolve(PUBLIC_DIR, rel)` on segment lists: ".." pops one
segment (never above the filesystem root), "." and empty segments are
dropped, and ordinary segments are pushed. -/
def resolvePath (base : List String) (rel : List String) : List String :=
  rel.foldl
    (fun acc seg =>
      if seg = ".." then acc.dropLast
      else if seg = "." ∨ seg = "" then acc
      else acc ++ [seg])
    base

/-- Embeds `resolvedPath.startsWith(publicRoot + path.sep)` on segment lists:
the resolved path extends the root by at least one segment. -/
def insideRoot (base p : List String) : Bool :=
  decide (p.take base.length = base) && decide (base.length < p.length)

/-- The filesystem path the local branch of `loadImageSource` would read, if
the traversal guard admits it. -/
def localReadTarget (base rel : List String) : Option (List String) :=
  let resolved := resolvePath base rel
  if insideRoot base resolved then some resolved else none

/-- Embeds the local-path branch of `loadImageSource` (src/unnamed/part_004):
resolve the leading-slash URL against the public root, reject any resolved
path escaping that root, otherwise read the file (readBytes is the
`fs.readFile` oracle, returning none on read errors). -/
def loadLocalImage (readBytes : List String → Option Nat) (base rel : List String) :
    Option Nat :=
  match localReadTarget base rel with
  | none => none
  | some p => readBytes p

/-- The session registry of `createMcpRouter`: the `transports` map from
session id to the transport (and its paired server), embedded as an
association list with handlers named by numbers. -/
structure SessionRegistry where
  transports : List (String × Nat)
deriving DecidableEq

/-- Looks up a live session entry by id. -/
def SessionRegistry.lookup (reg : SessionRegistry) (sid : String) : Option Nat :=
  (reg.transports.find? (fun e => e.1 == sid)).map (fun e => e.2)

/-- The session a request addresses: its `mcp-session-id` header, if present
and registered. -/
def sessionFor (reg : SessionRegistry) : Option String → Option Nat
  | none => none
  | some sid => reg.lookup sid

/-- An inbound request on the `/mcp` endpoint: a POST carrying a protocol
message (which may be the initialize handshake), or a GET / DELETE on an
existing session. -/
inductive McpRequest
  | post (sessionId : Option String) (isInit : Bool)
  | get (sessionId : Option String)
  | delete (sessionId : Option String)
deriving DecidableEq

/-- The session id header of a request. -/
def McpRequest.sessionId : McpRequest → Option String
  | .post sid _ => sid
  | .get sid => sid
  | .delete sid => sid

/-- Whether a request is the explicit initialization handshake
(`isInitializeRequest(req.body)` on a POST). -/
def isInitHandshake : McpRequest → Bool
  | .post _ isInit => isInit
  | .get _ => false
  | .delete _ => false

/-- The routing outcome: the request was forwarded to a session's transport,
or rejected with an HTTP client error. -/
inductive McpResponse
  | handled (handler : Nat)
  | clientError (status : Nat) (message : String)
deriving DecidableEq

/-- Embeds the request routing of `createMcpRouter` (src/unnamed/part_002):
a request with a live session id is forwarded to that session's transport; a
POST without one is either the initialize handshake (creating a fresh session
with a generated id) or rejected 400; a GET or DELETE without one is rejected
400.  `freshId` and `freshHandler` are the oracles for `randomUUID()` and the
newly constructed transport/server pair. -/
def handleMcp (reg : SessionRegistry) (req : McpRequest)
    (freshId : String) (freshHandler : Nat) : SessionRegistry × McpResponse :=
  match req with
  | .post sid isInit =>
    match sessionFor reg sid with
    | some h => (reg, .handled h)
    | none =>
      if isInit then
        (⟨(freshId, freshHandler) :: reg.transports⟩, .handled freshHandler)
      else
        (reg, .clientError 400 "Client must send initialize request first")
  | .get sid =>
    match sessionFor reg sid with
    | some h => (reg, .handled h)
    | none => (reg, .clientError 400 "No active MCP session.")
  | .delete sid =>
    match sessionFor reg sid with
    | some h => (reg, .handled h)
    | none => (reg, .clientError 400 "No active MCP session.")

/-- Demo pending items for the concurrency scenario. -/
def demoNewText (n : Nat) : NewGraffitiItem :=
  .text ("tag" ++ toString n) "Impact, sans-serif" "#111111" ⟨10, 10⟩ 42 0 1

/-- Demo id oracle (distinct ids, as `randomUUID` provides). -/
def demoIds (n : Nat) : String :=
  "uuid-" ++ toString n

/-- Demo clock oracle. -/
def demoClock (n : Nat) : Nat :=
  1000 + n

/-- Concrete store used by witnesses: items with createdAt 5 and 9. -/
def demoItems : List GraffitiItem :=
  [.text ⟨"a", "hi", "Impact, sans-serif", "#111111", ⟨1, 1⟩, 20, 0, 1, 5⟩,
   .text ⟨"b", "yo", "Impact, sans-serif", "#111111", ⟨2, 2⟩, 20, 0, 1, 9⟩]

/-- Concrete prior file for the append/list witness. -/
def demoFileC5 : List GraffitiItem :=
  [.text ⟨"a", "hi", "Impact, sans-serif", "#111111", ⟨1, 1⟩, 20, 0, 1, 5⟩]

/-- Concrete new item for the append/list witness. -/
def demoNewC5 : NewGraffitiItem :=
  .text "yo" "Impact, sans-serif" "#111111" ⟨2, 2⟩ 20 0 1

/-- Resolution oracle on which the bytes of "bad.png" resolve. -/
def decodeFailResolve : String → Option Nat :=
  fun u => if u = "bad.png" then some 7 else none

/-- Decode oracle on which no bytes decode (sharp rejects the payload). -/
def decodeFailDecode : Nat → Option Nat :=
  fun _ => none

/-- An image item whose source resolves but whose bytes do not decode. -/
def decodeFailItem : GraffitiItem :=
  .image ⟨"img1", "bad.png", ⟨10, 10⟩, ⟨20, 20⟩, 0, 1, 5⟩

/-- Resolution oracle for the skip witness: only "ok.png" resolves. -/
def skipResolve : String → Option Nat :=
  fun u => if u = "ok.png" then some 4 else none

/-- Decode oracle for the skip witness: every payload decodes. -/
def skipDecode : Nat → Option Nat :=
  fun b => some (b + 5)

/-- Items for the skip witness: a text item, an unresolvable image, and a
resolvable image. -/
def skipItems : List GraffitiItem :=
  [.text ⟨"t1", "hi", "Impact, sans-serif", "#111111", ⟨1, 1⟩, 20, 0, 1, 1⟩,
   .image ⟨"im-a", "miss.png", ⟨10, 10⟩, ⟨20, 20⟩, 0, 1, 2⟩,
   .image ⟨"im-b", "ok.png", ⟨30, 30⟩, ⟨20, 20⟩, 0, 1, 3⟩]

/-- Demo background for snapshot witnesses. -/
def demoBackground : Background :=
  ⟨10, 8⟩

/-- Cache holding an artifact for the empty-store key. -/
def demoHitCacheEmpty : String → Option SnapshotArtifact :=
  fun k => if k = "empty" then some ⟨10, 8⟩ else none

/-- Cache holding an artifact for the key of `[decodeFailItem]`. -/
def demoHitCacheFive : String → Option SnapshotArtifact :=
  fun k => if k = "5" then some ⟨10, 8⟩ else none

/-- Demo asset root for the traversal witness. -/
def demoPublicRoot : List String :=
  ["app", "public"]

/-- A traversal attempt escaping the asset root. -/
def demoTraversal : List String :=
  ["..", "..", "etc", "passwd"]

/-- Demo registry with one live session. -/
def demoRegistry : SessionRegistry :=
  ⟨[("sess-1", 1)]⟩

/-- A non-initialize POST carrying an unrecognized session id. -/
def demoStrayRequest : McpRequest :=
  .post (some "sess-2") false

/-- Inserting an element that is below the whole list places it at the head. -/
theorem orderedInsert_forall_le (a : GraffitiItem) (l : List GraffitiItem)
    (h : ∀ x ∈ l, createdLE a x) :
    List.orderedInsert createdLE a l = a :: l := by
  cases l with
  | nil => rfl
  | cons b t => exact List.orderedInsert_of_le createdLE t (h b (List.mem_cons_self b t))

/-- Sorting a sorted list with one element appended inserts that element after
every stored element whose key is not larger (the stable position). -/
theorem insertionSort_append_last (a : GraffitiItem) :
    ∀ l : List GraffitiItem, List.Sorted createdLE l →
      List.insertionSort createdLE (l ++ [a]) =
        (l.takeWhile fun b => decide (createdLE b a)) ++
          a :: l.dropWhile fun b => decide (createdLE b a)
  | [], _ => rfl
  | b :: l, h => by
    have hb : ∀ x ∈ l, createdLE b x := List.rel_of_sorted_cons h
    have hl : List.Sorted createdLE l := h.of_cons
    have ih := insertionSort_append_last a l hl
    have hcons : List.insertionSort createdLE ((b :: l) ++ [a]) =
        List.orderedInsert createdLE b (List.insertionSort createdLE (l ++ [a])) := rfl
    by_cases hba : createdLE b a
    · rw [hcons, ih, orderedInsert_forall_le]
      · simp [List.takeWhile_cons, List.dropWhile_cons, hba]
      · intro x hx
        rcases List.mem_append.mp hx with hx | hx
        · exact hb x ((List.takeWhile_sublist _).subset hx)
        · rcases List.mem_cons.mp hx with rfl | hx
          · exact hba
          · exact hb x ((List.dropWhile_sublist _).subset hx)
    · have htake : (l.takeWhile fun b => decide (createdLE b a)) = [] := by
        cases htw : l.takeWhile fun b => decide (createdLE b a) with
        | nil => rfl
        | cons c t =>
          exfalso
          have hc : c ∈ l.takeWhile fun b => decide (createdLE b a) := by
            rw [htw]; exact List.mem_cons_self c t
          have hca : createdLE c a := by
            have hdec := List.mem_takeWhile_imp hc
            simpa using hdec
          have hcl : c ∈ l := (List.takeWhile_sublist _).subset hc
          exact hba (Trans.trans (hb c hcl) hca)
      have hdrop : (l.dropWhile fun b => decide (createdLE b a)) = l := by
        have := List.takeWhile_append_dropWhile (fun b => decide (createdLE b a)) l
        rw [htake] at this
        simpa using this
      rw [hcons, ih, htake, hdrop]
      have h1 : List.orderedInsert createdLE b ([] ++ a :: l) =
          a :: List.orderedInsert createdLE b l := by
        simp [List.orderedInsert, hba]
      rw [h1, orderedInsert_forall_le b l hb]
      simp [List.takeWhile_cons, List.dropWhile_cons, hba]

/-- Inserting an element preserves, on each key class, the original order with
the new element put in front exactly when it carries that key. -/
theorem filter_orderedInsert_createdAt (k : Nat) (a : GraffitiItem)
    (l : List GraffitiItem) :
    (List.orderedInsert createdLE a l).filter (fun x => x.createdAt == k) =
      if a.createdAt == k then a :: l.filter (fun x => x.createdAt == k)
      else l.filter (fun x => x.createdAt == k) := by
  induction l with
  | nil =>
    by_cases hk : a.createdAt = k <;>
      simp [List.orderedInsert, List.filter_cons, beq_iff_eq, hk]
  | cons b l ih =>
    by_cases hab : createdLE a b
    · by_cases hk : a.createdAt = k <;> by_cases hbk : b.createdAt = k <;>
        simp [List.orderedInsert, if_pos hab, List.filter_cons, hk, hbk]
    · have hba : b.createdAt < a.createdAt := by
        simp only [createdLE] at hab
        exact not_le.mp hab
      have h1 : List.orderedInsert createdLE a (b :: l) =
          b :: List.orderedInsert createdLE a l := by
        simp [List.orderedInsert, hab]
      rw [h1]
      by_cases hk : a.createdAt = k
      · have hbk : ¬ b.createdAt = k := by omega
        simp [List.filter_cons, hk, hbk, ih]
      · by_cases hbk : b.createdAt = k <;> simp [List.filter_cons, hk, hbk, ih]

/-- The stability of `getGraffiti`'s sort: each key class keeps the stored
order. -/
theorem filter_insertionSort_createdAt (k : Nat) (l : List GraffitiItem) :
    (List.insertionSort createdLE l).filter (fun x => x.createdAt == k) =
      l.filter (fun x => x.createdAt == k) := by
  induction l with
  | nil => rfl
  | cons b l ih =>
    have h := filter_orderedInsert_createdAt k b (List.insertionSort createdLE l)
    by_cases hk : b.createdAt = k <;>
      simp_all [List.insertionSort, List.filter_cons, hk]

/-- Once the accumulator is set, the reduce of `generateWallSnapshot` computes
the running maximum. -/
theorem latestChangeMs_go (l : List GraffitiItem) :
    ∀ m : Nat, l.foldl latestStep (some m) =
      some (l.foldl (fun acc x => Nat.max acc x.createdAt) m) := by
  induction l with
  | nil => intro m; rfl
  | cons c l ih =>
    intro m
    have hstep : latestStep (some m) c = some (Nat.max m c.createdAt) := by
      show (if c.createdAt > m then some c.createdAt else some m) =
        some (Nat.max m c.createdAt)
      by_cases h : c.createdAt > m
      · have hmx : Nat.max m c.createdAt = c.createdAt :=
          Nat.max_eq_right (Nat.le_of_lt h)
        rw [if_pos h, hmx]
      · have hmx : Nat.max m c.createdAt = m :=
          Nat.max_eq_left (Nat.le_of_not_lt h)
        rw [if_neg h, hmx]
    rw [List.foldl_cons, List.foldl_cons, hstep]
    exact ih (Nat.max m c.createdAt)

/-- The left fold of `Nat.max` is its seed or an element of the list, and
bounds both from above. -/
theorem foldl_max_bounds (l : List Nat) :
    ∀ m : Nat, m ≤ l.foldl Nat.max m ∧
      (l.foldl Nat.max m = m ∨ l.foldl Nat.max m ∈ l) ∧
      ∀ x ∈ l, x ≤ l.foldl Nat.max m := by
  induction l with
  | nil => intro m; exact ⟨Nat.le_refl m, Or.inl rfl, by intro x hx; cases hx⟩
  | cons c l ih =>
    intro m
    obtain ⟨h1, h2, h3⟩ := ih (Nat.max m c)
    rw [List.foldl_cons]
    refine ⟨Nat.le_trans (Nat.le_max_left m c) h1, ?_, ?_⟩
    · rcases h2 with h2 | h2
      · rcases Nat.le_total m c with hmc | hmc
        · have hc : Nat.max m c = c := Nat.max_eq_right hmc
          exact Or.inr (by rw [h2, hc]; exact List.mem_cons_self c l)
        · have hm : Nat.max m c = m := Nat.max_eq_left hmc
          exact Or.inl (by rw [h2, hm])
      · exact Or.inr (List.mem_cons_of_mem c h2)
    · intro x hx
      rcases List.mem_cons.mp hx with rfl | hx
      · exact Nat.le_trans (Nat.le_max_right m x) h1
      · exact h3 x hx

/-- C1: the claim asserts that N concurrent appends against an empty store
always persist N items because the store serializes its mutations.  The store
does not serialize: `addGraffiti` is an unguarded read-modify-write of the
data file, so two concurrent appends that both complete their `getGraffiti()`
read before either `fs.writeFile` lose one update — the schedule
read 0, read 1, write 0, write 1 leaves a single item where the claim demands
two, while the serialized schedule read 0, write 0, read 1, write 1 keeps
both. -/
theorem addGraffiti_concurrent_lost_update :
    (runAppends demoNewText demoIds demoClock
        [.readStep 0, .readStep 1, .writeStep 0, .writeStep 1] []
        (fun _ => none)).length = 1 ∧
    (runAppends demoNewText demoIds demoClock
        [.readStep 0, .writeStep 0, .readStep 1, .writeStep 1] []
        (fun _ => none)).length = 2 :=
  ⟨rfl, rfl⟩

/-- C3: the snapshot cache key is a deterministic pure function of the item
sequence — the maximum parsed createdAt across all items rendered as a
string, or the fixed sentinel "empty" when the store is empty. -/
theorem snapshotKey_max_or_sentinel (items : List GraffitiItem) :
    (items = [] → snapshotKey items = "empty") ∧
    (items ≠ [] → ∃ m : Nat, snapshotKey items = toString m ∧
      (∃ x ∈ items, x.createdAt = m) ∧ ∀ x ∈ items, x.createdAt ≤ m) := by
  constructor
  · rintro rfl; rfl
  · intro hne
    cases items with
    | nil => exact absurd rfl hne
    | cons c l =>
      have hfold := latestChangeMs_go l c.createdAt
      have hmap : (l.map GraffitiItem.createdAt).foldl Nat.max c.createdAt =
          l.foldl (fun acc x => Nat.max acc x.createdAt) c.createdAt :=
        List.foldl_map GraffitiItem.createdAt Nat.max l c.createdAt
      obtain ⟨hle, hmem, hub⟩ := foldl_max_bounds (l.map GraffitiItem.createdAt) c.createdAt
      refine ⟨l.foldl (fun acc x => Nat.max acc x.createdAt) c.createdAt, ?_, ?_, ?_⟩
      · unfold snapshotKey latestChangeMs
        rw [List.foldl_cons]
        have hhead : latestStep none c = some c.createdAt := rfl
        rw [hhead, hfold]
      · rw [← hmap]
        rcases hmem with hm | hm
        · exact ⟨c, List.mem_cons_self c l, hm.symm ▸ rfl⟩
        · obtain ⟨y, hy, hym⟩ := List.mem_map.mp hm
          exact ⟨y, List.mem_cons_of_mem c hy, hym⟩
      · intro x hx
        rw [← hmap]
        rcases List.mem_cons.mp hx with rfl | hx
        · exact hle
        · exact hub x.createdAt (List.mem_map.mpr ⟨x, hx, rfl⟩)

/-- C3 witness: on the concrete two-item store, the key is the string of the
maximum createdAt. -/
theorem snapshotKey_max_or_sentinel_witness :
    demoItems ≠ [] ∧ ∃ m : Nat, snapshotKey demoItems = toString m ∧
      (∃ x ∈ demoItems, x.createdAt = m) ∧ ∀ x ∈ demoItems, x.createdAt ≤ m :=
  ⟨by decide, (snapshotKey_max_or_sentinel demoItems).2 (by decide)⟩

/-- C5: `addGraffiti` followed by `getGraffiti` yields the prior listing with
exactly one new entry — the returned record — inserted, all prior entries
unchanged and in their prior order; the id freshness supplied by
`randomUUID()` is the hypothesis making the new entry unique. -/
theorem addGraffiti_then_list (file : List GraffitiItem) (item : NewGraffitiItem)
    (newId : String) (now : Nat) (h : ∀ x ∈ file, x.id ≠ newId) :
    ∃ l₁ l₂ : List GraffitiItem,
      getGraffiti (addGraffiti file item newId now).2 =
        l₁ ++ (addGraffiti file item newId now).1 :: l₂ ∧
      l₁ ++ l₂ = getGraffiti file ∧
      (∀ x ∈ l₁, x.id ≠ newId) ∧ (∀ x ∈ l₂, x.id ≠ newId) := by
  have hsorted : List.Sorted createdLE (getGraffiti file) :=
    List.sorted_insertionSort createdLE file
  have hkey := insertionSort_append_last (item.withMeta newId now) (getGraffiti file) hsorted
  refine ⟨(getGraffiti file).takeWhile
      (fun b => decide (createdLE b (item.withMeta newId now))),
    (getGraffiti file).dropWhile
      (fun b => decide (createdLE b (item.withMeta newId now))), ?_, ?_, ?_, ?_⟩
  · exact hkey
  · exact List.takeWhile_append_dropWhile _ _
  · intro x hx
    exact h x ((List.mem_insertionSort createdLE).mp
      ((List.takeWhile_sublist _).subset hx))
  · intro x hx
    exact h x ((List.mem_insertionSort createdLE).mp
      ((List.dropWhile_sublist _).subset hx))

/-- C5 witness: appending a fresh-id item to the concrete one-item store. -/
theorem addGraffiti_then_list_witness :
    (∀ x ∈ demoFileC5, x.id ≠ "uuid-b") ∧
    ∃ l₁ l₂ : List GraffitiItem,
      getGraffiti (addGraffiti demoFileC5 demoNewC5 "uuid-b" 9).2 =
        l₁ ++ (addGraffiti demoFileC5 demoNewC5 "uuid-b" 9).1 :: l₂ ∧
      l₁ ++ l₂ = getGraffiti demoFileC5 ∧
      (∀ x ∈ l₁, x.id ≠ "uuid-b") ∧ (∀ x ∈ l₂, x.id ≠ "uuid-b") :=
  ⟨by decide, addGraffiti_then_list demoFileC5 demoNewC5 "uuid-b" 9 (by decide)⟩

/-- Replaying appends from any starting file appends each key class of the
new records, in append order, after the key class of the starting file. -/
theorem replay_filter (k : Nat) :
    ∀ (ops : List (NewGraffitiItem × String × Nat)) (file : List GraffitiItem),
      (ops.foldl (fun f op => (addGraffiti f op.1 op.2.1 op.2.2).2) file).filter
          (fun x => x.createdAt == k) =
        file.filter (fun x => x.createdAt == k) ++
          (appendedItems ops).filter (fun x => x.createdAt == k)
  | [], file => by simp [appendedItems]
  | op :: ops, file => by
    have ih := replay_filter k ops ((addGraffiti file op.1 op.2.1 op.2.2).2)
    have hfold : (op :: ops).foldl (fun f o => (addGraffiti f o.1 o.2.1 o.2.2).2) file =
        ops.foldl (fun f o => (addGraffiti f o.1 o.2.1 o.2.2).2)
          ((addGraffiti file op.1 op.2.1 op.2.2).2) := rfl
    have hstep : (addGraffiti file op.1 op.2.1 op.2.2).2 =
        List.insertionSort createdLE file ++ [op.1.withMeta op.2.1 op.2.2] := rfl
    have happ : appendedItems (op :: ops) =
        [op.1.withMeta op.2.1 op.2.2] ++ appendedItems ops := rfl
    rw [hfold, ih, hstep, happ, List.filter_append, List.filter_append,
      filter_insertionSort_createdAt, List.append_assoc]

/-- C6: `getGraffiti` lists the persisted items sorted ascending by createdAt;
on every key class of equal createdAt values it keeps the persisted order, and
for every store produced by a sequence of appends that persisted order of a
key class is the original append order (a stable ordering). -/
theorem getGraffiti_sorted_stable :
    (∀ file : List GraffitiItem, List.Sorted createdLE (getGraffiti file)) ∧
    (∀ (file : List GraffitiItem) (k : Nat),
      (getGraffiti file).filter (fun x => x.createdAt == k) =
        file.filter (fun x => x.createdAt == k)) ∧
    (∀ (ops : List (NewGraffitiItem × String × Nat)) (k : Nat),
      (getGraffiti (replayAppends ops)).filter (fun x => x.createdAt == k) =
        (appendedItems ops).filter (fun x => x.createdAt == k)) := by
  refine ⟨fun file => List.sorted_insertionSort createdLE file,
    fun file k => filter_insertionSort_createdAt k file,
    fun ops k => ?_⟩
  have h1 := filter_insertionSort_createdAt k (replayAppends ops)
  have h2 := replay_filter k ops []
  unfold getGraffiti
  rw [h1]
  unfold replayAppends
  simpa using h2

/-- On a cache hit `generateWallSnapshot` returns the recorded artifact's
pixel dimensions, the current item count, zero skipped images, the fromCache
flag, and an unchanged cache; the render oracles are never consulted. -/
theorem gen_hit (decode : Nat → Option Nat) (resolveS : String → Option Nat)
    (background : Option Background) (cache : String → Option SnapshotArtifact)
    (file : List GraffitiItem) (art : SnapshotArtifact)
    (h : cache (snapshotKey (getGraffiti file)) = some art) :
    generateWallSnapshot resolveS decode background cache file =
      .ok (⟨snapshotUrl (snapshotKey (getGraffiti file)), art.width, art.height,
        (getGraffiti file).length, 0, true, snapshotKey (getGraffiti file)⟩, cache) := by
  unfold generateWallSnapshot
  rw [h]

/-- On a cache miss with a valid background and a completed render loop,
`generateWallSnapshot` renders the composite and stores its artifact under
the state's key. -/
theorem gen_miss (resolveS : String → Option Nat) (decode : Nat → Option Nat)
    (bg : Background) (cache : String → Option SnapshotArtifact)
    (file : List GraffitiItem) (ovs : List Overlay) (skipped : Nat)
    (hc : cache (snapshotKey (getGraffiti file)) = none)
    (hw : ¬(bg.width = 0 ∨ bg.height = 0))
    (hr : renderOverlays resolveS decode (getGraffiti file) = .ok (ovs, skipped)) :
    generateWallSnapshot resolveS decode (some bg) cache file =
      .ok (⟨snapshotUrl (snapshotKey (getGraffiti file)), bg.width, bg.height,
        (getGraffiti file).length, skipped, false, snapshotKey (getGraffiti file)⟩,
        fun k =>
          if k = snapshotKey (getGraffiti file) then some ⟨bg.width, bg.height⟩
          else cache k) := by
  simp only [generateWallSnapshot, hc, hr]
  rw [if_neg hw]

/-- C2: when an artifact for the current state's fingerprint exists, render
returns it with its recorded pixel dimensions without recomputing the
composite (the render oracles and background are never consulted and the
cache is unchanged); and a second render with no intervening append returns
the same fingerprint and pixel dimensions as the first and is served from the
cache. -/
theorem generateWallSnapshot_cache_idempotent :
    (∀ (resolveS : String → Option Nat) (decode : Nat → Option Nat)
        (background : Option Background) (cache : String → Option SnapshotArtifact)
        (file : List GraffitiItem) (art : SnapshotArtifact),
      cache (snapshotKey (getGraffiti file)) = some art →
      generateWallSnapshot resolveS decode background cache file =
        .ok (⟨snapshotUrl (snapshotKey (getGraffiti file)), art.width, art.height,
          (getGraffiti file).length, 0, true, snapshotKey (getGraffiti file)⟩, cache)) ∧
    (∀ (resolveS : String → Option Nat) (decode : Nat → Option Nat)
        (background : Option Background) (cache : String → Option SnapshotArtifact)
        (file : List GraffitiItem) (r₁ : SnapshotResult)
        (c₁ : String → Option SnapshotArtifact),
      generateWallSnapshot resolveS decode background cache file = .ok (r₁, c₁) →
      ∃ r₂ : SnapshotResult,
        generateWallSnapshot resolveS decode background c₁ file = .ok (r₂, c₁) ∧
        r₂.snapshotKey = r₁.snapshotKey ∧ r₂.width = r₁.width ∧
        r₂.height = r₁.height ∧ r₂.fromCache = true) := by
  constructor
  · intro resolveS decode background cache file art h
    exact gen_hit decode resolveS background cache file art h
  · intro resolveS decode background cache file r₁ c₁ hr
    cases hc : cache (snapshotKey (getGraffiti file)) with
    | some art =>
      rw [gen_hit decode resolveS background cache file art hc] at hr
      injection hr with hpair
      injection hpair with hres hcache
      subst hres
      subst hcache
      exact ⟨_, gen_hit decode resolveS background cache file art hc, rfl, rfl, rfl, rfl⟩
    | none =>
      cases background with
      | none => simp [generateWallSnapshot, hc] at hr
      | some bg =>
        by_cases hw : bg.width = 0 ∨ bg.height = 0
        · simp [generateWallSnapshot, hc, hw] at hr
        · cases hrend : renderOverlays resolveS decode (getGraffiti file) with
          | error e => simp [generateWallSnapshot, hc, hrend, hw] at hr
          | ok pr =>
            obtain ⟨ovs, skipped⟩ := pr
            rw [gen_miss resolveS decode bg cache file ovs skipped hc hw hrend] at hr
            injection hr with hpair
            injection hpair with hres hcache
            subst hres
            subst hcache
            have hhit : (fun k =>
                if k = snapshotKey (getGraffiti file)
                then some (⟨bg.width, bg.height⟩ : SnapshotArtifact) else cache k)
                  (snapshotKey (getGraffiti file)) =
                some (⟨bg.width, bg.height⟩ : SnapshotArtifact) := by simp
            exact ⟨_, gen_hit decode resolveS (some bg) _ file ⟨bg.width, bg.height⟩ hhit,
              rfl, rfl, rfl, rfl⟩

/-- C2 witness: on a cache holding the empty-store artifact, the hit returns
the recorded dimensions with the cache unchanged, and the repeated call
returns the same key and dimensions from the cache. -/
theorem generateWallSnapshot_cache_idempotent_witness :
    demoHitCacheEmpty (snapshotKey (getGraffiti [])) = some ⟨10, 8⟩ ∧
    generateWallSnapshot (fun _ => none) (fun _ => none) (some demoBackground)
      demoHitCacheEmpty [] =
      .ok (⟨snapshotUrl "empty", 10, 8, 0, 0, true, "empty"⟩, demoHitCacheEmpty) ∧
    ∃ r₂ : SnapshotResult,
      generateWallSnapshot (fun _ => none) (fun _ => none) (some demoBackground)
        demoHitCacheEmpty [] = .ok (r₂, demoHitCacheEmpty) ∧
      r₂.snapshotKey = "empty" ∧ r₂.width = 10 ∧ r₂.height = 8 ∧ r₂.fromCache = true :=
  ⟨rfl,
    (generateWallSnapshot_cache_idempotent).1 (fun _ => none) (fun _ => none)
      (some demoBackground) demoHitCacheEmpty [] ⟨10, 8⟩ rfl,
    (generateWallSnapshot_cache_idempotent).2 (fun _ => none) (fun _ => none)
      (some demoBackground) demoHitCacheEmpty []
      ⟨snapshotUrl "empty", 10, 8, 0, 0, true, "empty"⟩ demoHitCacheEmpty rfl⟩

/-- C10: on a cache hit `generateWallSnapshot` reports `skippedImages` as 0
and `itemCount` as the current store's item count, whatever the cached
artifact was and however many images would fail to resolve — the recorded
artifact holds only pixel dimensions, and the hit branch never consults the
render oracles. -/
theorem generateWallSnapshot_hit_reports (resolveS : String → Option Nat)
    (decode : Nat → Option Nat) (background : Option Background)
    (cache : String → Option SnapshotArtifact) (file : List GraffitiItem)
    (art : SnapshotArtifact)
    (h : cache (snapshotKey (getGraffiti file)) = some art) :
    ∃ r : SnapshotResult,
      generateWallSnapshot resolveS decode background cache file = .ok (r, cache) ∧
      r.skippedImages = 0 ∧ r.itemCount = file.length ∧
      r.width = art.width ∧ r.height = art.height ∧ r.fromCache = true := by
  refine ⟨_, gen_hit decode resolveS background cache file art h, rfl, ?_, rfl, rfl, rfl⟩
  exact List.length_insertionSort createdLE file

/-- C10 witness: the store holds one image item that would fail to decode,
yet the cache hit reports zero skipped images and the current item count. -/
theorem generateWallSnapshot_hit_reports_witness :
    demoHitCacheFive (snapshotKey (getGraffiti [decodeFailItem])) = some ⟨10, 8⟩ ∧
    ∃ r : SnapshotResult,
      generateWallSnapshot decodeFailResolve decodeFailDecode (some demoBackground)
        demoHitCacheFive [decodeFailItem] = .ok (r, demoHitCacheFive) ∧
      r.skippedImages = 0 ∧ r.itemCount = [decodeFailItem].length ∧
      r.width = 10 ∧ r.height = 8 ∧ r.fromCache = true :=
  ⟨rfl, generateWallSnapshot_hit_reports decodeFailResolve decodeFailDecode
    (some demoBackground) demoHitCacheFive [decodeFailItem] ⟨10, 8⟩ rfl⟩

/-- C4 counterexample: a store whose single image item resolves but whose
bytes do not decode makes the render fail with an error instead of
succeeding with a skipped-item count — the sharp pipeline of the render loop
is not guarded, refuting the claim for the undecodable case. -/
theorem render_decode_failure_aborts :
    decodeFailResolve "bad.png" = some 7 ∧ decodeFailDecode 7 = none ∧
    renderOverlays decodeFailResolve decodeFailDecode (getGraffiti [decodeFailItem]) =
      .error "decode" ∧
    generateWallSnapshot decodeFailResolve decodeFailDecode (some demoBackground)
      (fun _ => none) [decodeFailItem] = .error "decode" :=
  ⟨rfl, rfl, rfl, rfl⟩

/-- C4 (amended): when every image item whose source resolves also decodes,
the render loop succeeds, skipping exactly the image items whose source does
not resolve — one counter increment per such item — and compositing every
other item in order. -/
theorem renderOverlays_skip_unresolved (resolveS : String → Option Nat)
    (decode : Nat → Option Nat) (items : List GraffitiItem)
    (h : ∀ x ∈ items, decodesAll resolveS decode x = true) :
    renderOverlays resolveS decode items =
      .ok (items.filterMap (compositeOf resolveS decode),
        items.countP (unresolvedImage resolveS)) := by
  induction items with
  | nil => rfl
  | cons x items ih =>
    have hx := h x (List.mem_cons_self x items)
    have ihr := ih (fun y hy => h y (List.mem_cons_of_mem x hy))
    cases x with
    | text txt =>
      simp [renderOverlays, ihr, compositeOf, unresolvedImage,
        List.filterMap_cons, List.countP_cons]
    | image img =>
      cases hres : resolveS img.imageUrl with
      | none =>
        simp [renderOverlays, hres, ihr, compositeOf, unresolvedImage,
          List.filterMap_cons, List.countP_cons]
      | some b =>
        have hd : (decode b).isSome = true := by
          simpa [decodesAll, hres] using hx
        obtain ⟨d, hdd⟩ := Option.isSome_iff_exists.mp hd
        simp [renderOverlays, hres, hdd, ihr, compositeOf, unresolvedImage,
          List.filterMap_cons, List.countP_cons]

/-- C4 witness: a text item, an unresolvable image, and a resolvable image —
the loop succeeds, skips exactly one item, and composites the other two. -/
theorem renderOverlays_skip_unresolved_witness :
    (∀ x ∈ skipItems, decodesAll skipResolve skipDecode x = true) ∧
    renderOverlays skipResolve skipDecode skipItems =
      .ok (skipItems.filterMap (compositeOf skipResolve skipDecode),
        skipItems.countP (unresolvedImage skipResolve)) ∧
    skipItems.countP (unresolvedImage skipResolve) = 1 ∧
    (skipItems.filterMap (compositeOf skipResolve skipDecode)).length = 2 :=
  ⟨by decide,
    renderOverlays_skip_unresolved skipResolve skipDecode skipItems (by decide),
    by decide, by decide⟩

/-- C7: both tool handlers store the normalized pair — a pair whose two
components both lie in [0,1) is scaled by 100, any other pair is stored
as-is — and in particular a spray_image position of (0.5, 0.5) is stored as
(50, 50). -/
theorem normalizePercentPair_heuristic :
    (∀ x y : ℚ, 0 ≤ x → x < 1 → 0 ≤ y → y < 1 →
      normalizePercentPair x y = ⟨x * 100, y * 100, true⟩) ∧
    (∀ x y : ℚ, ¬(0 ≤ x ∧ x < 1 ∧ 0 ≤ y ∧ y < 1) →
      normalizePercentPair x y = ⟨x, y, false⟩) ∧
    (∀ (t f c : String) (p : Position) (sz rot op : ℚ),
      sprayText t f c p sz rot op =
        .text t f c ⟨(normalizePercentPair p.x p.y).first,
          (normalizePercentPair p.x p.y).second⟩ sz rot op) ∧
    (∀ (u : String) (p : Position) (d : Dimensions) (rot op : ℚ),
      sprayImage u p d rot op =
        .image u
          ⟨(normalizePercentPair p.x p.y).first,
            (normalizePercentPair p.x p.y).second⟩
          ⟨(normalizePercentPair d.width d.height).first,
            (normalizePercentPair d.width d.height).second⟩ rot op) ∧
    sprayImage "u" ⟨1/2, 1/2⟩ ⟨20, 30⟩ 0 1 = .image "u" ⟨50, 50⟩ ⟨20, 30⟩ 0 1 := by
  have hhalf : normalizePercentPair (1/2 : ℚ) (1/2) = ⟨50, 50, true⟩ := by
    have hf : fractionRange (1/2 : ℚ) = true := by
      simp only [fractionRange, decide_eq_true_eq]
      norm_num
    simp only [normalizePercentPair, hf, Bool.and_self, if_pos]
    have : (1/2 : ℚ) * 100 = 50 := by norm_num
    rw [this]
  have hdims : normalizePercentPair (20 : ℚ) 30 = ⟨20, 30, false⟩ := by
    have hf : fractionRange (20 : ℚ) = false := by
      simp only [fractionRange, decide_eq_false_iff_not]
      norm_num
    simp [normalizePercentPair, hf]
  refine ⟨?_, ?_, fun t f c p sz rot op => rfl, fun u p d rot op => rfl, ?_⟩
  · intro x y h0x h1x h0y h1y
    have hfx : fractionRange x = true := by
      simp only [fractionRange, decide_eq_true_eq]
      exact ⟨h0x, h1x⟩
    have hfy : fractionRange y = true := by
      simp only [fractionRange, decide_eq_true_eq]
      exact ⟨h0y, h1y⟩
    simp [normalizePercentPair, hfx, hfy]
  · intro x y hne
    by_cases hx : 0 ≤ x ∧ x < 1
    · by_cases hy : 0 ≤ y ∧ y < 1
      · exact absurd ⟨hx.1, hx.2, hy.1, hy.2⟩ hne
      · simp [normalizePercentPair, fractionRange, hy]
    · simp [normalizePercentPair, fractionRange, hx]
  · simp only [sprayImage, hhalf, hdims]

/-- C7 witness: the fraction pair (0.5, 0.5) is scaled by 100. -/
theorem normalizePercentPair_heuristic_witness :
    ((0 : ℚ) ≤ 1 / 2 ∧ (1 / 2 : ℚ) < 1) ∧
    normalizePercentPair (1 / 2) (1 / 2) = ⟨(1 / 2) * 100, (1 / 2) * 100, true⟩ :=
  ⟨by norm_num, (normalizePercentPair_heuristic).1 (1 / 2) (1 / 2)
    (by norm_num) (by norm_num) (by norm_num) (by norm_num)⟩

/-- C8: the local branch of `loadImageSource` rejects any resolved path the
traversal guard finds outside the managed asset root (no bytes are produced
so the item is skipped), and every path it does hand to the filesystem read
lies strictly under that root. -/
theorem loadLocalImage_traversal_guard :
    (∀ (readBytes : List String → Option Nat) (base rel : List String),
      insideRoot base (resolvePath base rel) = false →
      loadLocalImage readBytes base rel = none) ∧
    (∀ base rel p : List String, localReadTarget base rel = some p →
      ∃ rest : List String, p = base ++ rest ∧ rest ≠ []) := by
  constructor
  · intro readBytes base rel h
    simp [loadLocalImage, localReadTarget, h]
  · intro base rel p h
    unfold localReadTarget at h
    by_cases hin : insideRoot base (resolvePath base rel) = true
    · rw [if_pos hin] at h
      injection h with hp
      subst hp
      unfold insideRoot at hin
      rw [Bool.and_eq_true, decide_eq_true_eq, decide_eq_true_eq] at hin
      obtain ⟨htake, hlen⟩ := hin
      refine ⟨(resolvePath base rel).drop base.length, ?_, ?_⟩
      · have hsplit := (List.take_append_drop base.length (resolvePath base rel)).symm
        rw [htake] at hsplit
        exact hsplit
      · intro hnil
        have hlen0 : ((resolvePath base rel).drop base.length).length = 0 := by
          rw [hnil]; rfl
        rw [List.length_drop] at hlen0
        omega
    · rw [if_neg hin] at h
      cases h

/-- C8 witness: a "/../../etc/passwd"-style traversal resolves outside the
asset root and is rejected before any read. -/
theorem loadLocalImage_traversal_guard_witness :
    insideRoot demoPublicRoot (resolvePath demoPublicRoot demoTraversal) = false ∧
    resolvePath demoPublicRoot demoTraversal = ["etc", "passwd"] ∧
    loadLocalImage (fun _ => some 3) demoPublicRoot demoTraversal = none :=
  ⟨by decide, by decide, (loadLocalImage_traversal_guard).1 (fun _ => some 3)
    demoPublicRoot demoTraversal (by decide)⟩

/-- C9: a request that is not the initialize handshake and carries a missing
or unrecognized session id is rejected with a 400 client error and the
registry is unchanged; conversely any request that changes the registry is an
initialize handshake without a live session. -/
theorem mcpSession_gatekeeping :
    (∀ (reg : SessionRegistry) (req : McpRequest) (freshId : String)
        (freshHandler : Nat),
      isInitHandshake req = false →
      sessionFor reg req.sessionId = none →
      ∃ msg, handleMcp reg req freshId freshHandler = (reg, .clientError 400 msg)) ∧
    (∀ (reg : SessionRegistry) (req : McpRequest) (freshId : String)
        (freshHandler : Nat),
      (handleMcp reg req freshId freshHandler).1 ≠ reg →
      isInitHandshake req = true ∧ sessionFor reg req.sessionId = none) := by
  constructor
  · intro reg req fid fh hinit hsess
    cases req with
    | post sid isInit =>
      have hb : isInit = false := hinit
      subst hb
      have hs : sessionFor reg sid = none := hsess
      exact ⟨"Client must send initialize request first", by simp [handleMcp, hs]⟩
    | get sid =>
      have hs : sessionFor reg sid = none := hsess
      exact ⟨"No active MCP session.", by simp [handleMcp, hs]⟩
    | delete sid =>
      have hs : sessionFor reg sid = none := hsess
      exact ⟨"No active MCP session.", by simp [handleMcp, hs]⟩
  · intro reg req fid fh hchanged
    cases req with
    | post sid isInit =>
      cases hs : sessionFor reg sid with
      | some h => exact absurd (by simp [handleMcp, hs]) hchanged
      | none =>
        cases isInit with
        | true => exact ⟨rfl, hs⟩
        | false => exact absurd (by simp [handleMcp, hs]) hchanged
    | get sid =>
      cases hs : sessionFor reg sid with
      | some h => exact absurd (by simp [handleMcp, hs]) hchanged
      | none => exact absurd (by simp [handleMcp, hs]) hchanged
    | delete sid =>
      cases hs : sessionFor reg sid with
      | some h => exact absurd (by simp [handleMcp, hs]) hchanged
      | none => exact absurd (by simp [handleMcp, hs]) hchanged

/-- C9 witness: a non-initialize POST with an unrecognized session id against
a registry holding one live session is rejected 400 with no session
created. -/
theorem mcpSession_gatekeeping_witness :
    isInitHandshake demoStrayRequest = false ∧
    sessionFor demoRegistry demoStrayRequest.sessionId = none ∧
    ∃ msg, handleMcp demoRegistry demoStrayRequest "fresh-id" 9 =
      (demoRegistry, .clientError 400 msg) :=
  ⟨rfl, by decide, (mcpSession_gatekeeping).1 demoRegistry demoStrayRequest
    "fresh-id" 9 rfl (by decide)⟩

end Leftys
